import Mathlib

/-!
Verification development for the RizzMaster scoring state machine and
chat-turn protocol.

The definitions below are a shallow embedding of the TypeScript source:

- `RizzMaster.updateFlags` embeds `updateFlags` from
  `src/RizzMaster/hooks/useGameState.ts` (lines 51-78);
- `RizzMaster.jsonParse` is an executable model of the JavaScript
  `JSON.parse` applied to completion payloads (numbers are restricted to
  integers, matching the decode grammar where flag counts are ints);
- `RizzMaster.parseAssistantResponse` and `RizzMaster.parseAssistantMessage`
  embed the response parser in `useChat.ts`;
- `RizzMaster.sendMessage` embeds the orchestrator `sendMessage` in
  `useChat.ts` as a pure transition over a chat state and an environment
  describing the credential and the fetch outcome;
- `RizzMaster.resetChat`, `RizzMaster.resetGameState` and
  `RizzMaster.resetGame` embed the reset operations, with the persistent
  store modelled as an association list.
-/

namespace RizzMaster

/-- Terminal game outcomes; the TypeScript `GameStatus` is one of these or
`null`, modelled as `Option GameOutcome`. -/
inductive GameOutcome where
  | GAME_OVER
  | GAME_WON
deriving DecidableEq, Repr

/-- `GameStatus` from `useGameState.ts`: `'GAME_OVER' | 'GAME_WON' | null`. -/
abbrev GameStatus := Option GameOutcome

/-- `FlagStats` from `useGameState.ts`; also the shape of a per-turn flag
delta (`detectedFlags`). -/
structure FlagStats where
  green : Int
  red : Int
  hardNo : Bool
deriving DecidableEq, Repr

/-- The two difficulty fields with runtime effect, from
`CharacterProfile.difficulty`. -/
structure Difficulty where
  toleranceRed : Int
  minGreenForSecondDate : Int
deriving DecidableEq, Repr

/-- Embedding of `updateFlags` (`useGameState.ts` lines 51-78): add the
delta componentwise, OR the hard-no flag, then decide the status; the
stored status is overwritten only when the freshly decided status is
non-null (`if (finalGameStatus) setGameStatus(finalGameStatus)`). -/
def updateFlags (stats : FlagStats) (detected : FlagStats) (diff : Difficulty)
    (gameStatus : GameStatus) : FlagStats × GameStatus :=
  let newGreen := stats.green + detected.green
  let newRed := stats.red + detected.red
  let newHardNo := stats.hardNo || detected.hardNo
  let finalGameStatus : GameStatus :=
    if newRed ≥ diff.toleranceRed ∨ newHardNo = true then
      some .GAME_OVER
    else if newGreen ≥ diff.minGreenForSecondDate ∧ newRed < diff.toleranceRed then
      some .GAME_WON
    else
      none
  (⟨newGreen, newRed, newHardNo⟩,
   match finalGameStatus with
   | some s => some s
   | none => gameStatus)

/-- The status decision exactly as the specification words it (section 4.1,
step 3): loss first, then win, else unchanged null. Used to compare the
source's `updateFlags` against the spec. -/
def specNewStatus (t : FlagStats) (diff : Difficulty) : GameStatus :=
  if t.red ≥ diff.toleranceRed ∨ t.hardNo = true then
    some .GAME_OVER
  else if t.green ≥ diff.minGreenForSecondDate ∧ t.red < diff.toleranceRed then
    some .GAME_WON
  else
    none

/-- Folding a sequence of per-turn deltas through `updateFlags`, threading
both the tally and the status, as successive orchestrator turns do. -/
def applyDeltas (stats : FlagStats) (gs : GameStatus) (diff : Difficulty) :
    List FlagStats → FlagStats × GameStatus
  | [] => (stats, gs)
  | d :: ds =>
    let r := updateFlags stats d diff gs
    applyDeltas r.1 r.2 diff ds

/-- Tally monotonicity of the delta fold, for non-negative deltas: the
green and red counts never decrease and the hard-no bit is sticky. -/
theorem applyDeltas_monotone (ds : List FlagStats) (stats : FlagStats)
    (gs : GameStatus) (diff : Difficulty)
    (hnn : ∀ d ∈ ds, 0 ≤ d.green ∧ 0 ≤ d.red) :
    stats.green ≤ (applyDeltas stats gs diff ds).1.green ∧
    stats.red ≤ (applyDeltas stats gs diff ds).1.red ∧
    (stats.hardNo = true → (applyDeltas stats gs diff ds).1.hardNo = true) := by
  induction ds generalizing stats gs with
  | nil => exact ⟨le_refl _, le_refl _, fun h => h⟩
  | cons d ds ih =>
    have hd := hnn d (List.mem_cons_self d ds)
    have hrest : ∀ x ∈ ds, 0 ≤ x.green ∧ 0 ≤ x.red :=
      fun x hx => hnn x (List.mem_cons_of_mem d hx)
    have step := ih (updateFlags stats d diff gs).1 (updateFlags stats d diff gs).2 hrest
    simp only [applyDeltas]
    refine ⟨le_trans ?_ step.1, le_trans ?_ step.2.1, fun h => step.2.2 ?_⟩
    · simp only [updateFlags]
      omega
    · simp only [updateFlags]
      omega
    · simp only [updateFlags, h, Bool.true_or]

/-- Claim C1: with the current status null, `updateFlags` adds the delta
componentwise, ORs the hard-no bit, and decides the new status with loss
checked before win, exactly as the spec's ordered decision; in particular a
simultaneous win-and-loss delta yields GAME_OVER, and a hardNo delta forces
GAME_OVER regardless of the counts. -/
theorem c1_updateFlags_spec (stats detected : FlagStats) (diff : Difficulty)
    (gs : GameStatus) (h : gs = none) :
    updateFlags stats detected diff gs =
      (⟨stats.green + detected.green, stats.red + detected.red,
        stats.hardNo || detected.hardNo⟩,
       specNewStatus
         ⟨stats.green + detected.green, stats.red + detected.red,
          stats.hardNo || detected.hardNo⟩ diff) ∧
    (detected.hardNo = true →
      (updateFlags stats detected diff gs).2 = some .GAME_OVER) ∧
    (stats.red + detected.red ≥ diff.toleranceRed ∧
        stats.green + detected.green ≥ diff.minGreenForSecondDate →
      (updateFlags stats detected diff gs).2 = some .GAME_OVER) := by
  subst h
  refine ⟨?_, ?_, ?_⟩
  · simp only [updateFlags, specNewStatus]
    split
    next s heq => rw [heq]
    next heq => rw [heq]
  · intro hhn
    simp only [updateFlags, hhn, Bool.or_true]
    simp
  · intro hboth
    simp only [updateFlags]
    rw [if_pos (Or.inl hboth.1)]

/-- Witness for C1, at the spec's own example (`toleranceRed=2,
`minGreenForSecondDate=3`, delta reaching green 3 and red 2 at once):
the loss check wins on simultaneous satisfaction. -/
theorem c1_updateFlags_spec_witness :
    updateFlags ⟨0, 0, false⟩ ⟨3, 2, false⟩ ⟨2, 3⟩ none =
      (⟨(0 : Int) + 3, (0 : Int) + 2, false || false⟩,
       specNewStatus ⟨(0 : Int) + 3, (0 : Int) + 2, false || false⟩ ⟨2, 3⟩) ∧
    ((false : Bool) = true →
      (updateFlags ⟨0, 0, false⟩ ⟨3, 2, false⟩ ⟨2, 3⟩ none).2 = some .GAME_OVER) ∧
    ((0 : Int) + 2 ≥ (2 : Int) ∧ (0 : Int) + 3 ≥ (3 : Int) →
      (updateFlags ⟨0, 0, false⟩ ⟨3, 2, false⟩ ⟨2, 3⟩ none).2 = some .GAME_OVER) :=
  c1_updateFlags_spec ⟨0, 0, false⟩ ⟨3, 2, false⟩ ⟨2, 3⟩ none rfl

/-- Claim C3: over any sequence of non-negative deltas applied starting
from a null status, the green and red tallies are non-decreasing and the
hard-no bit is sticky (once true it stays true even if later deltas report
false). -/
theorem c3_tally_monotone (ds : List FlagStats) (stats : FlagStats)
    (gs : GameStatus) (diff : Difficulty) (hgs : gs = none)
    (hnn : ∀ d ∈ ds, 0 ≤ d.green ∧ 0 ≤ d.red) :
    stats.green ≤ (applyDeltas stats gs diff ds).1.green ∧
    stats.red ≤ (applyDeltas stats gs diff ds).1.red ∧
    (stats.hardNo = true → (applyDeltas stats gs diff ds).1.hardNo = true) := by
  subst hgs
  exact applyDeltas_monotone ds stats none diff hnn

/-- Witness for C3: a hard-no already set stays set across a later
`hardNo:false` delta, and the counts do not decrease. -/
theorem c3_tally_monotone_witness :
    (⟨1, 1, true⟩ : FlagStats).green ≤
      (applyDeltas ⟨1, 1, true⟩ none ⟨5, 5⟩ [⟨0, 0, false⟩, ⟨2, 1, false⟩]).1.green ∧
    (⟨1, 1, true⟩ : FlagStats).red ≤
      (applyDeltas ⟨1, 1, true⟩ none ⟨5, 5⟩ [⟨0, 0, false⟩, ⟨2, 1, false⟩]).1.red ∧
    ((⟨1, 1, true⟩ : FlagStats).hardNo = true →
      (applyDeltas ⟨1, 1, true⟩ none ⟨5, 5⟩ [⟨0, 0, false⟩, ⟨2, 1, false⟩]).1.hardNo = true) :=
  c3_tally_monotone [⟨0, 0, false⟩, ⟨2, 1, false⟩] ⟨1, 1, true⟩ none ⟨5, 5⟩ rfl
    (by intro d hd; fin_cases hd <;> exact ⟨by norm_num, by norm_num⟩)

/-! ### A model of the JavaScript string trim used by the source -/

/-- Whitespace recognised by the trim model (the ASCII whitespace characters
of JavaScript's `String.prototype.trim`). -/
def wsChar (c : Char) : Bool :=
  c = ' ' || c = '\t' || c = '\n' || c = '\r' || c = Char.ofNat 11 || c = Char.ofNat 12

/-- Drop leading whitespace characters. -/
def dropLeadingWs : List Char → List Char
  | [] => []
  | c :: cs => if wsChar c then dropLeadingWs cs else c :: cs

/-- Drop leading then trailing whitespace. -/
def jsTrimAux (cs : List Char) : List Char :=
  (dropLeadingWs ((dropLeadingWs cs).reverse)).reverse

/-- Model of `.trim()` on JavaScript strings. -/
def jsTrim (s : String) : String :=
  String.mk (jsTrimAux s.data)

theorem dropLeadingWs_head (cs : List Char) :
    dropLeadingWs cs = [] ∨
      ∃ c rest, dropLeadingWs cs = c :: rest ∧ wsChar c = false := by
  induction cs with
  | nil => exact Or.inl rfl
  | cons c cs ih =>
    by_cases h : wsChar c = true
    · simpa [dropLeadingWs, h] using ih
    · right
      exact ⟨c, cs, by simp [dropLeadingWs, h], by simpa using h⟩

theorem dropLeadingWs_of_head_not_ws (cs : List Char)
    (h : cs = [] ∨ ∃ c rest, cs = c :: rest ∧ wsChar c = false) :
    dropLeadingWs cs = cs := by
  rcases h with h | ⟨c, rest, hcs, hc⟩
  · simp [h, dropLeadingWs]
  · simp [hcs, dropLeadingWs, hc]

theorem dropLeadingWs_idem (cs : List Char) :
    dropLeadingWs (dropLeadingWs cs) = dropLeadingWs cs :=
  dropLeadingWs_of_head_not_ws _ (dropLeadingWs_head cs)

theorem dropLeadingWs_suffix (cs : List Char) :
    ∃ pre, cs = pre ++ dropLeadingWs cs := by
  induction cs with
  | nil => exact ⟨[], rfl⟩
  | cons c cs ih =>
    by_cases h : wsChar c = true
    · obtain ⟨pre, hpre⟩ := ih
      exact ⟨c :: pre, by simp [dropLeadingWs, h]; exact hpre⟩
    · exact ⟨[], by simp [dropLeadingWs, h]⟩

theorem jsTrimAux_idem (cs : List Char) : jsTrimAux (jsTrimAux cs) = jsTrimAux cs := by
  set A := dropLeadingWs cs with hA
  set B := dropLeadingWs A.reverse with hB
  have hstep1 : dropLeadingWs B.reverse = B.reverse := by
    rcases dropLeadingWs_head (A.reverse) with hBnil | ⟨c, rest, hc, hcw⟩
    · rw [← hB] at hBnil
      simp [hBnil, dropLeadingWs]
    · rw [← hB] at hc
      obtain ⟨pre, hpre⟩ := dropLeadingWs_suffix (A.reverse)
      rw [← hB] at hpre
      -- A = B.reverse ++ pre.reverse, so the head of B.reverse is the head of A
      have hArev : A = B.reverse ++ pre.reverse := by
        have := congrArg List.reverse hpre
        simpa using this
      rcases dropLeadingWs_head cs with hAnil | ⟨a, arest, ha, haw⟩
      · rw [← hA] at hAnil
        rw [hAnil] at hArev
        have : B.reverse = [] := by
          cases hrev : B.reverse with
          | nil => rfl
          | cons x xs => rw [hrev] at hArev; simp at hArev
        simp [this, dropLeadingWs]
      · rw [← hA] at ha
        cases hrev : B.reverse with
        | nil => simp [dropLeadingWs]
        | cons x xs =>
          rw [hrev] at hArev
          rw [hArev] at ha
          have hx : x = a := by
            have := ha
            simp at this
            exact this.1
          apply dropLeadingWs_of_head_not_ws
          exact Or.inr ⟨x, xs, rfl, hx ▸ haw⟩
  have hstep2 : dropLeadingWs B = B := by
    rw [hB]
    exact dropLeadingWs_idem _
  calc jsTrimAux (jsTrimAux cs)
      = (dropLeadingWs ((dropLeadingWs B.reverse).reverse)).reverse := rfl
    _ = (dropLeadingWs (B.reverse.reverse)).reverse := by rw [hstep1]
    _ = (dropLeadingWs B).reverse := by rw [List.reverse_reverse]
    _ = B.reverse := by rw [hstep2]
    _ = jsTrimAux cs := rfl

theorem jsTrim_idem (s : String) : jsTrim (jsTrim s) = jsTrim s := by
  unfold jsTrim
  exact congrArg String.mk (jsTrimAux_idem s.data)

/-! ### A model of `JSON.parse` on completion payloads

JSON values; numbers are restricted to integers, which covers the decode
grammar of the spec (flag counts are ints) and every payload this
development evaluates. -/

inductive JsonVal where
  | null
  | bool (b : Bool)
  | num (n : Int)
  | str (s : String)
  | arr (elems : List JsonVal)
  | obj (fields : List (String × JsonVal))

/-- Opening brace character, written by code to keep string literals free of
braces. -/
def lbrace : Char := Char.ofNat 123

/-- Closing brace character. -/
def rbrace : Char := Char.ofNat 125

/-- JSON insignificant whitespace. -/
def jsonWsChar (c : Char) : Bool :=
  c = ' ' || c = '\t' || c = '\n' || c = '\r'

/-- Skip insignificant whitespace. -/
def skipWs : List Char → List Char
  | [] => []
  | c :: cs => if jsonWsChar c then skipWs cs else c :: cs

def isDigitChar (c : Char) : Bool :=
  '0' ≤ c && c ≤ '9'

def hexVal (c : Char) : Option Nat :=
  if '0' ≤ c ∧ c ≤ '9' then some (c.toNat - '0'.toNat)
  else if 'a' ≤ c ∧ c ≤ 'f' then some (c.toNat - 'a'.toNat + 10)
  else if 'A' ≤ c ∧ c ≤ 'F' then some (c.toNat - 'A'.toNat + 10)
  else none

/-- Single-character escapes accepted inside JSON strings. -/
def escChar (c : Char) : Option Char :=
  if c = '"' then some '"'
  else if c = '\\' then some '\\'
  else if c = '/' then some '/'
  else if c = 'b' then some (Char.ofNat 8)
  else if c = 'f' then some (Char.ofNat 12)
  else if c = 'n' then some '\n'
  else if c = 'r' then some '\r'
  else if c = 't' then some '\t'
  else none

/-- Parse the body of a JSON string after the opening quote; returns the
decoded characters and the remainder after the closing quote. -/
def parseStrBody (fuel : Nat) (cs : List Char) : Option (List Char × List Char) :=
  match fuel with
  | 0 => none
  | fuel + 1 =>
    match cs with
    | [] => none
    | c :: rest =>
      if c = '"' then some ([], rest)
      else if c = '\\' then
        match rest with
        | [] => none
        | e :: rest2 =>
          if e = 'u' then
            match rest2 with
            | h1 :: h2 :: h3 :: h4 :: rest3 =>
              match hexVal h1, hexVal h2, hexVal h3, hexVal h4 with
              | some a, some b, some c2, some d =>
                match parseStrBody fuel rest3 with
                | some (out, rem) =>
                  some (Char.ofNat (((a * 16 + b) * 16 + c2) * 16 + d) :: out, rem)
                | none => none
              | _, _, _, _ => none
            | _ => none
          else
            match escChar e with
            | some ec =>
              match parseStrBody fuel rest2 with
              | some (out, rem) => some (ec :: out, rem)
              | none => none
            | none => none
      else if c.toNat < 32 then none
      else
        match parseStrBody fuel rest with
        | some (out, rem) => some (c :: out, rem)
        | none => none

def takeDigits : List Char → List Char × List Char
  | [] => ([], [])
  | c :: cs =>
    if isDigitChar c then
      let r := takeDigits cs
      (c :: r.1, r.2)
    else ([], c :: cs)

def digitsToNat (ds : List Char) : Nat :=
  ds.foldl (fun acc c => acc * 10 + (c.toNat - 48)) 0

/-- Parse the digits of a JSON number (leading zeros rejected); fraction and
exponent forms are outside this integer model and are rejected. -/
def parseNumberBody (cs : List Char) : Option (Nat × List Char) :=
  match takeDigits cs with
  | ([], _) => none
  | (d :: ds, rest) =>
    if d = '0' ∧ ds ≠ [] then none
    else
      match rest with
      | c :: _ => if c = '.' || c = 'e' || c = 'E' then none else some (digitsToNat (d :: ds), rest)
      | [] => some (digitsToNat (d :: ds), rest)

/-- Parsing mode: a full value, the members of an object after its opening
brace, or the elements of an array after its opening bracket. -/
inductive PMode where
  | value
  | objItems (acc : List (String × JsonVal))
  | arrItems (acc : List JsonVal)

/-- Recursive-descent JSON parser, structurally recursive on fuel so that
the kernel can evaluate it. Duplicate object keys keep their textual order;
`lookupLast` below makes the last duplicate win, as `JSON.parse` does. -/
def parseCore (fuel : Nat) (mode : PMode) (cs : List Char) : Option (JsonVal × List Char) :=
  match fuel with
  | 0 => none
  | fuel + 1 =>
    match mode with
    | .value =>
      match cs with
      | [] => none
      | c :: rest =>
        if c = 'n' then
          match rest with
          | 'u' :: 'l' :: 'l' :: r => some (.null, r)
          | _ => none
        else if c = 't' then
          match rest with
          | 'r' :: 'u' :: 'e' :: r => some (.bool true, r)
          | _ => none
        else if c = 'f' then
          match rest with
          | 'a' :: 'l' :: 's' :: 'e' :: r => some (.bool false, r)
          | _ => none
        else if c = '"' then
          match parseStrBody fuel rest with
          | some (chars, r) => some (.str (String.mk chars), r)
          | none => none
        else if c = '-' then
          match parseNumberBody rest with
          | some (n, r) => some (.num (-(n : Int)), r)
          | none => none
        else if isDigitChar c then
          match parseNumberBody (c :: rest) with
          | some (n, r) => some (.num (n : Int), r)
          | none => none
        else if c = lbrace then
          match skipWs rest with
          | c2 :: r2 =>
            if c2 = rbrace then some (.obj [], r2)
            else parseCore fuel (.objItems []) (c2 :: r2)
          | [] => none
        else if c = '[' then
          match skipWs rest with
          | c2 :: r2 =>
            if c2 = ']' then some (.arr [], r2)
            else parseCore fuel (.arrItems []) (c2 :: r2)
          | [] => none
        else none
    | .objItems acc =>
      match cs with
      | c :: rest =>
        if c = '"' then
          match parseStrBody fuel rest with
          | some (keyChars, r1) =>
            match skipWs r1 with
            | ':' :: r3 =>
              match parseCore fuel .value (skipWs r3) with
              | some (v, r4) =>
                match skipWs r4 with
                | ',' :: r6 =>
                  parseCore fuel (.objItems (acc ++ [(String.mk keyChars, v)])) (skipWs r6)
                | c5 :: r6 =>
                  if c5 = rbrace then some (.obj (acc ++ [(String.mk keyChars, v)]), r6)
                  else none
                | [] => none
              | none => none
            | _ => none
          | none => none
        else none
      | [] => none
    | .arrItems acc =>
      match parseCore fuel .value cs with
      | some (v, r1) =>
        match skipWs r1 with
        | ',' :: r2 => parseCore fuel (.arrItems (acc ++ [v])) (skipWs r2)
        | c :: r2 => if c = ']' then some (.arr (acc ++ [v]), r2) else none
        | [] => none
      | none => none

/-- Model of `JSON.parse`: parse one value, allowing surrounding
whitespace, and fail unless the whole input is consumed. -/
def jsonParse (s : String) : Option JsonVal :=
  match parseCore (s.data.length + 2) .value (skipWs s.data) with
  | some (v, rest) => if skipWs rest = [] then some v else none
  | none => none

/-- Last-duplicate-wins field lookup, matching `JSON.parse` object
semantics. -/
def lookupLast (fields : List (String × JsonVal)) (k : String) : Option JsonVal :=
  match fields with
  | [] => none
  | (k2, v) :: rest =>
    match lookupLast rest k with
    | some r => some r
    | none => if k2 = k then some v else none

/-- Property access `v.k`: a field of an object, `undefined` (none)
otherwise. Access on `null` is handled separately where the source can
throw. -/
def getField (v : JsonVal) (k : String) : Option JsonVal :=
  match v with
  | .obj fields => lookupLast fields k
  | _ => none

/-- Optional chaining `v?.k`: `undefined` when the base is `null` or
`undefined`. -/
def optField (v : Option JsonVal) (k : String) : Option JsonVal :=
  match v with
  | some .null => none
  | some v2 => getField v2 k
  | none => none

/-- JavaScript truthiness of a parsed JSON value. -/
def jsTruthy : JsonVal → Bool
  | .null => false
  | .bool b => b
  | .num n => n != 0
  | .str s => s != ""
  | .arr _ => true
  | .obj _ => true

/-! The `x || default` field coercions of the source, modelled at the
declared field types: a present value of the declared type is kept (for a
falsy value of that type the JS `||` yields the default, which coincides
with the value itself: `"" || ''`, `0 || 0`, `false || false`), and
anything else — absent, null, or a value of another runtime type, which is
outside the decode grammar — is mapped to the default. -/

def strOrEmpty : Option JsonVal → String
  | some (.str s) => s
  | _ => ""

def numOrZero : Option JsonVal → Int
  | some (.num n) => n
  | _ => 0

def boolOrFalse : Option JsonVal → Bool
  | some (.bool b) => b
  | _ => false

def statusOrNull : Option JsonVal → GameStatus
  | some (.str s) =>
    if s = "GAME_OVER" then some .GAME_OVER
    else if s = "GAME_WON" then some .GAME_WON
    else none
  | _ => none

/-- `ParsedAssistantResponse` from `useChat.ts`. -/
structure ParsedAssistantResponse where
  message : String
  flagsDetected : FlagStats
  gameStatus : GameStatus
deriving DecidableEq, Repr

def defaultParsedResponse : ParsedAssistantResponse :=
  ⟨"", ⟨0, 0, false⟩, none⟩

/-- Embedding of `parseAssistantResponse` (`useChat.ts` lines 190-215).
The `some .null` branch models the `TypeError` thrown by `parsed.message`
when `JSON.parse` returns `null`, which the enclosing `catch` turns into
the raw-text fallback. -/
def parseAssistantResponse (raw : String) : ParsedAssistantResponse :=
  if raw = "" then defaultParsedResponse
  else
    match jsonParse raw with
    | none => { defaultParsedResponse with message := jsTrim raw }
    | some .null => { defaultParsedResponse with message := jsTrim raw }
    | some parsed =>
      let fd := getField parsed "flagsDetected"
      { message := strOrEmpty (getField parsed "message"),
        flagsDetected :=
          ⟨numOrZero (optField fd "green"),
           numOrZero (optField fd "red"),
           boolOrFalse (optField fd "hardNo")⟩,
        gameStatus := statusOrNull (getField parsed "gameStatus") }

/-- Embedding of `parseAssistantMessage` (`useChat.ts` lines 217-232): the
display-only extraction used when rendering stored assistant messages. -/
def parseAssistantMessage (raw : String) : String :=
  if raw = "" then ""
  else
    match jsonParse raw with
    | some parsed =>
      if jsTruthy parsed then
        match getField parsed "message" with
        | some (.str m) => jsTrim m
        | _ => jsTrim raw
      else jsTrim raw
    | none => jsTrim raw

/-! ### Claims C4 and C5: the response parser -/

/-- The result the claim C4 prescribes on decode failure: raw text trimmed,
zero flags, null status. -/
def specFallback (raw : String) : ParsedAssistantResponse :=
  ⟨jsTrim raw, ⟨0, 0, false⟩, none⟩

/-- Stated from the claim C4's words: the payload shape the spec expects,
namely an object with a string `message`, a `flagsDetected` object holding
int `green` and `red` and bool `hardNo`, and a string-or-null `gameStatus`. -/
def matchesExpectedShape (v : JsonVal) : Bool :=
  match v with
  | .obj _ =>
    (match getField v "message" with
     | some (.str _) => true
     | _ => false) &&
    (match getField v "flagsDetected" with
     | some fd =>
       (match getField fd "green" with | some (.num _) => true | _ => false) &&
       (match getField fd "red" with | some (.num _) => true | _ => false) &&
       (match getField fd "hardNo" with | some (.bool _) => true | _ => false)
     | none => false) &&
    (match getField v "gameStatus" with
     | some (.str _) => true
     | some .null => true
     | _ => false)
  | _ => false

/-- Decode failure in the sense of claim C4: malformed payload, or payload
not matching the expected shape. -/
def specDecodeFails (raw : String) : Bool :=
  match jsonParse raw with
  | none => true
  | some v => !(matchesExpectedShape v)

/-- Counterexample to claim C4 as stated: the raw text `42` is a
well-formed JSON payload that does not match the expected shape, so the
claim's decode failure holds, yet the parser keeps the per-field defaults
(empty message) instead of returning the raw text trimmed. -/
theorem c4_counterexample :
    specDecodeFails "42" = true ∧
      parseAssistantResponse "42" ≠ specFallback "42" := by
  decide

/-- Claim C4 as amended: on the raw completion texts on which `JSON.parse`
itself fails (malformed payload), the parser returns the raw text trimmed
with zero flags and null status, and being a total function it never
signals failure to the caller; a payload that parses but does not match
the expected shape instead falls back field by field. -/
theorem c4_parse_failure_fallback (raw : String) (h : jsonParse raw = none) :
    parseAssistantResponse raw = specFallback raw := by
  unfold parseAssistantResponse specFallback
  by_cases hraw : raw = ""
  · subst hraw
    rw [if_pos rfl]
    decide
  · rw [if_neg hraw, h]
    rfl

/-- Witness for the amended C4 at a plain non-JSON text. -/
theorem c4_parse_failure_fallback_witness :
    jsonParse "hello world" = none ∧
      parseAssistantResponse "hello world" = specFallback "hello world" :=
  ⟨rfl, c4_parse_failure_fallback "hello world" rfl⟩

/-- The strict display decode of `parseAssistantMessage`: the `message`
field of a truthy parsed payload when it is a string, nothing otherwise. -/
def displayDecode (s : String) : Option String :=
  match jsonParse s with
  | some parsed =>
    if jsTruthy parsed then
      match getField parsed "message" with
      | some (.str m) => some m
      | _ => none
    else none
  | none => none

/-- Every result of the display extraction is already trimmed. -/
theorem parseAssistantMessage_trimmed (x : String) :
    jsTrim (parseAssistantMessage x) = parseAssistantMessage x := by
  unfold parseAssistantMessage
  by_cases hx : x = ""
  · rw [if_pos hx]
    decide
  · rw [if_neg hx]
    cases hj : jsonParse x with
    | none => exact jsTrim_idem x
    | some parsed =>
      by_cases ht : jsTruthy parsed = true
      · simp only [ht, if_true]
        cases hg : getField parsed "message" with
        | none => exact jsTrim_idem x
        | some v =>
          cases v with
          | str m => exact jsTrim_idem m
          | null => exact jsTrim_idem x
          | bool b => exact jsTrim_idem x
          | num n => exact jsTrim_idem x
          | arr es => exact jsTrim_idem x
          | obj fs => exact jsTrim_idem x
      · simp only [ht, if_false, Bool.false_eq_true]
        exact jsTrim_idem x

/-- A trimmed string on which the strict display decode yields nothing is a
fixed point of the display extraction. -/
theorem parseAssistantMessage_of_plain (y : String)
    (hd : displayDecode y = none) (ht : jsTrim y = y) :
    parseAssistantMessage y = y := by
  unfold parseAssistantMessage
  by_cases hy : y = ""
  · rw [if_pos hy, hy]
  · rw [if_neg hy]
    unfold displayDecode at hd
    cases hj : jsonParse y with
    | none => exact ht
    | some parsed =>
      rw [hj] at hd
      by_cases htr : jsTruthy parsed = true
      · simp only [htr, if_true] at hd ⊢
        cases hg : getField parsed "message" with
        | none => exact ht
        | some v =>
          cases v with
          | str m =>
            rw [hg] at hd
            simp at hd
          | null => exact ht
          | bool b => exact ht
          | num n => exact ht
          | arr es => exact ht
          | obj fs => exact ht
      · simp only [htr, if_false, Bool.false_eq_true]
        exact ht

/-- Counterexample to claim C5 as stated: an assistant payload whose
`message` field is itself a serialized payload is unwrapped further by a
second extraction, so idempotence fails on it. -/
theorem c5_counterexample :
    parseAssistantMessage
        (parseAssistantMessage
          "\x7b\"message\": \"\x7b\\\"message\\\": \\\"inner\\\"\x7d\"\x7d") ≠
      parseAssistantMessage
        "\x7b\"message\": \"\x7b\\\"message\\\": \\\"inner\\\"\x7d\"\x7d" := by
  decide

/-- Claim C5 as amended: the display extraction is idempotent on every raw
string whose extracted text is not itself a decodable payload with a string
message field — in particular on every plain string, where the decode fails
and the trimmed text passes through unchanged. -/
theorem c5_extract_idem (x : String)
    (h : displayDecode (parseAssistantMessage x) = none) :
    parseAssistantMessage (parseAssistantMessage x) = parseAssistantMessage x :=
  parseAssistantMessage_of_plain _ h (parseAssistantMessage_trimmed x)

/-- Witness for the amended C5 at a plain string. -/
theorem c5_extract_idem_witness :
    displayDecode (parseAssistantMessage "hello") = none ∧
      parseAssistantMessage (parseAssistantMessage "hello") =
        parseAssistantMessage "hello" :=
  ⟨rfl, c5_extract_idem "hello" rfl⟩

/-! ### The turn orchestrator (`useChat.ts`) -/

/-- Message roles; the stored history only ever holds `user` and
`assistant`, the `system` role appears solely in outbound requests. -/
inductive Role where
  | user
  | assistant
  | system
deriving DecidableEq, Repr

/-- `Message` from `useChat.ts`. -/
structure Message where
  role : Role
  content : String
deriving DecidableEq, Repr

/-- The orchestrator state of `useChat` (messages, busy flag, prompt
loading state, error slots) together with the game state it reads and
updates through `onFlagsDetected = updateFlags`. -/
structure ChatState where
  messages : List Message
  sending : Bool
  loadingPrompt : Bool
  systemPrompt : String
  promptError : Option String
  networkError : Option String
  flagStats : FlagStats
  gameStatus : GameStatus
deriving DecidableEq, Repr

/-- Resolution of the one awaited `fetch` of a turn. -/
inductive FetchResult where
  | transportError
  | httpError (status : Nat) (body : String)
  | success (content : Option String)
deriving DecidableEq, Repr

/-- Environment of a turn: whether `EXPO_PUBLIC_OPENAI_API_KEY` is set, and
how the remote call resolves. -/
structure Env where
  apiKeyPresent : Bool
  fetch : FetchResult
deriving DecidableEq, Repr

/-- The error string set on any caught failure of the turn
(`useChat.ts` line 161). -/
def networkErrorMsg : String :=
  "Erreur lors de l\x27appel à ChatGPT. Vérifie ta connexion et ta clé EXPO_PUBLIC_OPENAI_API_KEY."

/-- The error string set when loading the persona script fails
(`useChat.ts` line 70). -/
def promptErrorMsg : String :=
  "Impossible de charger le prompt (script.txt)."

/-- The fallback assistant content when the completion payload carries no
`choices[0].message.content` (`useChat.ts` lines 152-154). -/
def defaultAssistantContent : String :=
  "\x7b\"message\": \"Impossible de lire la réponse.\", \"flagsDetected\": \x7b\"green\": 0, \"red\": 0, \"hardNo\": false\x7d, \"gameStatus\": null\x7d"

/-- The persona instructions: trimmed static script text concatenated with
the serialized profile (`useChat.ts` lines 62-64). -/
def buildSystemPrompt (script profileJson : String) : String :=
  jsTrim script ++ "\n\n---\n\nPROFIL DU PERSONNAGE À INCARNER:\n" ++ profileJson

/-- The hidden scoring context of a turn (`useChat.ts` line 124): current
tallies, the character's thresholds, and the turn counter
`floor(messageCount / 2)`. -/
def contextMessage (stats : FlagStats) (diff : Difficulty) (msgCount : Nat) : String :=
  "[CONTEXTE INTERNE - NE PAS MENTIONNER: Green flags cumulés: " ++ toString stats.green ++
  ", Red flags cumulés: " ++ toString stats.red ++
  ", Tolérance red: " ++ toString diff.toleranceRed ++
  ", Min green pour gagner: " ++ toString diff.minGreenForSecondDate ++
  ", Échanges: " ++ toString (msgCount / 2) ++ "]"

/-- Outcome of the prompt-loading effect (`useChat.ts` lines 52-73): on
success the combined prompt is installed, on failure `promptError` is set
and the prompt stays as it was (empty). -/
def loadPrompt (st : ChatState) (scriptText : Option String) (profileJson : String) :
    ChatState :=
  match scriptText with
  | some script =>
    { st with systemPrompt := buildSystemPrompt script profileJson, loadingPrompt := false }
  | none =>
    { st with promptError := some promptErrorMsg, loadingPrompt := false }

/-- The submit guard of `sendMessage` (`useChat.ts` line 106):
`!input.trim() || sending || loadingPrompt || !systemPrompt ||
gameStatus !== null`. -/
def sendBlocked (st : ChatState) (input : String) : Bool :=
  jsTrim input == "" || st.sending || st.loadingPrompt ||
    st.systemPrompt == "" || st.gameStatus.isSome

/-- Result of one `sendMessage` call: the state after the turn settles, the
flag delta handed to `onFlagsDetected` (none when it was not invoked), and
the outbound request when a remote call was issued. -/
structure SendOutcome where
  state : ChatState
  appliedDelta : Option FlagStats
  request : Option (List Message)
deriving DecidableEq, Repr

/-- Embedding of `sendMessage` (`useChat.ts` lines 105-167) as one atomic
transition: the guard, the optimistic user-message append, the credential
check (which throws before `fetch` is called), the remote call resolved by
the environment, response parsing, the `onFlagsDetected` call into
`updateFlags`, the assistant append, and the `finally` that clears the
busy flag. -/
def sendMessage (diff : Difficulty) (st : ChatState) (input : String) (env : Env) :
    SendOutcome :=
  if sendBlocked st input then
    ⟨st, none, none⟩
  else
    let trimmed := jsTrim input
    let updatedMessages := st.messages ++ [⟨.user, trimmed⟩]
    if env.apiKeyPresent = false then
      ⟨{ st with messages := updatedMessages, sending := false,
                 networkError := some networkErrorMsg }, none, none⟩
    else
      let ctx := contextMessage st.flagStats diff updatedMessages.length
      let req : List Message := ⟨.system, st.systemPrompt⟩ :: ⟨.system, ctx⟩ :: updatedMessages
      match env.fetch with
      | .transportError =>
        ⟨{ st with messages := updatedMessages, sending := false,
                   networkError := some networkErrorMsg }, none, some req⟩
      | .httpError _ _ =>
        ⟨{ st with messages := updatedMessages, sending := false,
                   networkError := some networkErrorMsg }, none, some req⟩
      | .success content =>
        let assistantContent := content.getD defaultAssistantContent
        let parsed := parseAssistantResponse assistantContent
        let r := updateFlags st.flagStats parsed.flagsDetected diff st.gameStatus
        ⟨{ st with messages := updatedMessages ++ [⟨.assistant, assistantContent⟩],
                   sending := false, networkError := none,
                   flagStats := r.1, gameStatus := r.2 },
         some parsed.flagsDetected, some req⟩

theorem sendBlocked_eq_false (st : ChatState) (input : String)
    (h1 : jsTrim input ≠ "") (h2 : st.sending = false) (h3 : st.loadingPrompt = false)
    (h4 : st.systemPrompt ≠ "") (h5 : st.gameStatus = none) :
    sendBlocked st input = false := by
  simp [sendBlocked, h1, h2, h3, h4, h5]

theorem sendMessage_of_blocked (diff : Difficulty) (st : ChatState) (input : String)
    (env : Env) (h : sendBlocked st input = true) :
    sendMessage diff st input env = ⟨st, none, none⟩ := by
  unfold sendMessage
  rw [h]
  rfl

/-- Claim C2: a submit proceeds only when the trimmed input is non-empty,
no request is in flight, the persona instructions have finished loading
(successfully, so the prompt is non-empty), and the status is null; in
every other case it is a no-op that changes no state, and in particular a
non-null status refuses every submit, so no flag delta is applied after a
terminal status. -/
theorem c2_submit_guard (diff : Difficulty) (st : ChatState) (input : String) (env : Env) :
    (sendMessage diff st input env ≠ ⟨st, none, none⟩ →
      jsTrim input ≠ "" ∧ st.sending = false ∧ st.loadingPrompt = false ∧
        st.systemPrompt ≠ "" ∧ st.gameStatus = none) ∧
    (¬(jsTrim input ≠ "" ∧ st.sending = false ∧ st.loadingPrompt = false ∧
        st.systemPrompt ≠ "" ∧ st.gameStatus = none) →
      sendMessage diff st input env = ⟨st, none, none⟩) ∧
    (st.gameStatus ≠ none → sendMessage diff st input env = ⟨st, none, none⟩) := by
  by_cases hb : sendBlocked st input = true
  · have hnoop := sendMessage_of_blocked diff st input env hb
    exact ⟨fun hne => absurd hnoop hne, fun _ => hnoop, fun _ => hnoop⟩
  · have hb' : sendBlocked st input = false := by
      cases h : sendBlocked st input
      · rfl
      · exact absurd h hb
    have hc : jsTrim input ≠ "" ∧ st.sending = false ∧ st.loadingPrompt = false ∧
        st.systemPrompt ≠ "" ∧ st.gameStatus = none := by
      simp only [sendBlocked, Bool.or_eq_false_iff, beq_eq_false_iff_ne, ne_eq] at hb'
      refine ⟨hb'.1.1.1.1, hb'.1.1.1.2, hb'.1.1.2, hb'.1.2, ?_⟩
      have hsome := hb'.2
      cases hgs : st.gameStatus
      · rfl
      · rw [hgs] at hsome
        simp at hsome
    exact ⟨fun _ => hc, fun hnc => absurd hc hnc, fun hgs => absurd hc.2.2.2.2 hgs⟩

def diffEx : Difficulty := ⟨2, 3⟩

def stTerminal : ChatState :=
  ⟨[], false, false, "p", none, none, ⟨0, 0, false⟩, some .GAME_OVER⟩

def envOk : Env := ⟨true, .success (some "ok")⟩

/-- Witness for C2: with a terminal status every submit is refused. -/
theorem c2_submit_guard_witness :
    sendMessage diffEx stTerminal "salut" envOk = ⟨stTerminal, none, none⟩ :=
  (c2_submit_guard diffEx stTerminal "salut" envOk).2.2 (by decide)

/-- Claim C6: when the remote call fails (transport error or non-success
HTTP status, which includes authorization failures), the turn surfaces the
transient error message, keeps the just-appended user message, appends no
assistant message, applies no flag delta, and leaves the tally, status and
prior history untouched. -/
theorem c6_remote_failure (diff : Difficulty) (st : ChatState) (input : String) (env : Env)
    (h1 : jsTrim input ≠ "") (h2 : st.sending = false) (h3 : st.loadingPrompt = false)
    (h4 : st.systemPrompt ≠ "") (h5 : st.gameStatus = none)
    (hkey : env.apiKeyPresent = true)
    (hfail : env.fetch = .transportError ∨ ∃ status body, env.fetch = .httpError status body) :
    (sendMessage diff st input env).state.messages =
      st.messages ++ [⟨.user, jsTrim input⟩] ∧
    (sendMessage diff st input env).state.networkError = some networkErrorMsg ∧
    (sendMessage diff st input env).appliedDelta = none ∧
    (sendMessage diff st input env).state.flagStats = st.flagStats ∧
    (sendMessage diff st input env).state.gameStatus = st.gameStatus ∧
    (sendMessage diff st input env).state.sending = false := by
  have hb := sendBlocked_eq_false st input h1 h2 h3 h4 h5
  unfold sendMessage
  rw [hb]
  simp only [Bool.false_eq_true, if_false, hkey]
  rcases hfail with hf | ⟨status, body, hf⟩ <;>
    simp [hf]

def stReady : ChatState :=
  ⟨[], false, false, "p", none, none, ⟨0, 0, false⟩, none⟩

def envFailNet : Env := ⟨true, .transportError⟩

/-- Witness for C6 at a concrete failing turn. -/
theorem c6_remote_failure_witness :
    (sendMessage diffEx stReady "salut" envFailNet).state.messages =
      stReady.messages ++ [⟨.user, jsTrim "salut"⟩] ∧
    (sendMessage diffEx stReady "salut" envFailNet).state.networkError =
      some networkErrorMsg ∧
    (sendMessage diffEx stReady "salut" envFailNet).appliedDelta = none ∧
    (sendMessage diffEx stReady "salut" envFailNet).state.flagStats = stReady.flagStats ∧
    (sendMessage diffEx stReady "salut" envFailNet).state.gameStatus = stReady.gameStatus ∧
    (sendMessage diffEx stReady "salut" envFailNet).state.sending = false :=
  c6_remote_failure diffEx stReady "salut" envFailNet (by decide) (by decide) (by decide)
    (by decide) (by decide) (by decide) (Or.inl rfl)

def envNoKey : Env := ⟨false, .transportError⟩

/-- Counterexample to claim C8 as stated: with the credential missing, the
turn surfaces exactly the transient network-error message (the same state
and message a transport failure produces, hence not distinct from it), and
afterwards submission is not disabled — the very next submit from the
resulting state is not a no-op. -/
theorem c8_counterexample :
    (sendMessage diffEx stReady "salut" envNoKey).state.networkError =
      (sendMessage diffEx stReady "salut" envFailNet).state.networkError ∧
    (sendMessage diffEx stReady "salut" envNoKey).state.networkError =
      some networkErrorMsg ∧
    sendMessage diffEx (sendMessage diffEx stReady "salut" envNoKey).state "re" envNoKey ≠
      ⟨(sendMessage diffEx stReady "salut" envNoKey).state, none, none⟩ := by
  decide

/-- Claim C8 as amended: a missing persona script sets the persistent
inline `promptError` and leaves the prompt empty, which disables every
subsequent submit; a missing credential is detected before any request is
attempted (no request is issued and the outcome ignores the fetch result),
but it is surfaced through the same transient network-error message as a
transport failure and does not disable submission. -/
theorem c8_config_error (diff : Difficulty) (st : ChatState) (input : String)
    (pj : String) (f1 f2 : FetchResult)
    (h1 : jsTrim input ≠ "") (h2 : st.sending = false) (h3 : st.loadingPrompt = false)
    (h5 : st.gameStatus = none) :
    (loadPrompt st none pj).promptError = some promptErrorMsg ∧
    (loadPrompt st none pj).systemPrompt = st.systemPrompt ∧
    (st.systemPrompt = "" → ∀ env : Env, sendMessage diff st input env = ⟨st, none, none⟩) ∧
    (st.systemPrompt ≠ "" →
      (sendMessage diff st input ⟨false, f1⟩).request = none ∧
      sendMessage diff st input ⟨false, f1⟩ = sendMessage diff st input ⟨false, f2⟩ ∧
      (sendMessage diff st input ⟨false, f1⟩).state.networkError = some networkErrorMsg ∧
      (sendMessage diff st input ⟨false, f1⟩).state.networkError =
        (sendMessage diff st input ⟨true, .transportError⟩).state.networkError) := by
  refine ⟨rfl, rfl, fun hempty env => ?_, fun h4 => ?_⟩
  · apply sendMessage_of_blocked
    simp [sendBlocked, hempty]
  · have hb := sendBlocked_eq_false st input h1 h2 h3 h4 h5
    unfold sendMessage
    rw [hb]
    simp only [Bool.false_eq_true, if_false]
    exact ⟨rfl, rfl, rfl, rfl⟩

/-- Witness for the amended C8, at a concrete ready state and missing
credential. -/
theorem c8_config_error_witness :
    (loadPrompt stReady none "pj").promptError = some promptErrorMsg ∧
    (loadPrompt stReady none "pj").systemPrompt = stReady.systemPrompt ∧
    (stReady.systemPrompt = "" →
      ∀ env : Env, sendMessage diffEx stReady "salut" env = ⟨stReady, none, none⟩) ∧
    (stReady.systemPrompt ≠ "" →
      (sendMessage diffEx stReady "salut" ⟨false, .transportError⟩).request = none ∧
      sendMessage diffEx stReady "salut" ⟨false, .transportError⟩ =
        sendMessage diffEx stReady "salut" ⟨false, .success (some "x")⟩ ∧
      (sendMessage diffEx stReady "salut" ⟨false, .transportError⟩).state.networkError =
        some networkErrorMsg ∧
      (sendMessage diffEx stReady "salut" ⟨false, .transportError⟩).state.networkError =
        (sendMessage diffEx stReady "salut" ⟨true, .transportError⟩).state.networkError) :=
  c8_config_error diffEx stReady "salut" "pj" .transportError (.success (some "x"))
    (by decide) (by decide) (by decide) (by decide)

/-- The combined persona prompt is never the empty string (it contains the
fixed separator). -/
theorem buildSystemPrompt_ne_empty (script pj : String) :
    buildSystemPrompt script pj ≠ "" := by
  intro h
  have hlen := congrArg String.length h
  rw [buildSystemPrompt, String.length_append, String.length_append] at hlen
  have hmid : ("\n\n---\n\nPROFIL DU PERSONNAGE À INCARNER:\n" : String).length = 40 := by
    decide
  have hnil : ("" : String).length = 0 := rfl
  rw [hmid, hnil] at hlen
  omega

/-- Claim C9: a submitted turn's outbound request is the persona
instructions as a leading system message, then a system message carrying
the hidden scoring context (tallies, thresholds, and the turn counter
`floor(messageCount / 2)`), then the full visible history ending with the
just-appended user message; and the stored history never contains a
system-role message, so the hidden context is not part of the stored or
rendered history. -/
theorem c9_request_assembly (diff : Difficulty) (st : ChatState) (input : String)
    (env : Env) (script pj : String)
    (h1 : jsTrim input ≠ "") (h2 : st.sending = false) (h3 : st.loadingPrompt = false)
    (h4 : st.systemPrompt = buildSystemPrompt script pj) (h5 : st.gameStatus = none)
    (hkey : env.apiKeyPresent = true)
    (hroles : ∀ m ∈ st.messages, m.role ≠ Role.system) :
    (sendMessage diff st input env).request =
      some (⟨Role.system, buildSystemPrompt script pj⟩ ::
            ⟨Role.system,
              contextMessage st.flagStats diff
                (st.messages ++ [(⟨Role.user, jsTrim input⟩ : Message)]).length⟩ ::
            (st.messages ++ [(⟨Role.user, jsTrim input⟩ : Message)])) ∧
    ∀ m ∈ (sendMessage diff st input env).state.messages, m.role ≠ Role.system := by
  have h4ne : st.systemPrompt ≠ "" := h4 ▸ buildSystemPrompt_ne_empty script pj
  have hb := sendBlocked_eq_false st input h1 h2 h3 h4ne h5
  have hmem : ∀ m ∈ st.messages ++ [(⟨Role.user, jsTrim input⟩ : Message)],
      m.role ≠ Role.system := by
    intro m hm
    rcases List.mem_append.mp hm with hm | hm
    · exact hroles m hm
    · rcases List.mem_singleton.mp hm with rfl
      simp
  unfold sendMessage
  rw [hb]
  simp only [Bool.false_eq_true, if_false]
  rw [hkey, if_neg (by simp)]
  cases hf : env.fetch with
  | transportError => exact ⟨by rw [h4], hmem⟩
  | httpError status body => exact ⟨by rw [h4], hmem⟩
  | success content =>
    refine ⟨by rw [h4], ?_⟩
    intro m hm
    have hm2 : m ∈ (st.messages ++ [(⟨Role.user, jsTrim input⟩ : Message)]) ++
        [(⟨Role.assistant, content.getD defaultAssistantContent⟩ : Message)] := hm
    rcases List.mem_append.mp hm2 with hmu | hma
    · exact hmem m hmu
    · rcases List.mem_singleton.mp hma with rfl
      simp

/-- Witness for C9 at a concrete first turn. -/
theorem c9_request_assembly_witness :
    (sendMessage diffEx
        ⟨[], false, false, buildSystemPrompt "script" "pj", none, none, ⟨0, 0, false⟩, none⟩
        "salut" envOk).request =
      some (⟨Role.system, buildSystemPrompt "script" "pj"⟩ ::
            ⟨Role.system,
              contextMessage ⟨0, 0, false⟩ diffEx
                (([] : List Message) ++ [(⟨Role.user, jsTrim "salut"⟩ : Message)]).length⟩ ::
            (([] : List Message) ++ [(⟨Role.user, jsTrim "salut"⟩ : Message)])) ∧
    ∀ m ∈ (sendMessage diffEx
        ⟨[], false, false, buildSystemPrompt "script" "pj", none, none, ⟨0, 0, false⟩, none⟩
        "salut" envOk).state.messages, m.role ≠ Role.system :=
  c9_request_assembly diffEx
    ⟨[], false, false, buildSystemPrompt "script" "pj", none, none, ⟨0, 0, false⟩, none⟩
    "salut" envOk "script" "pj" (by decide) rfl rfl rfl rfl rfl
    (by intro m hm; simp at hm)

/-! ### Reset operations and character-scoped storage (C7, C10) -/

/-- The persistent key-value store (`AsyncStorage`), modelled as an
association list. -/
abbrev Storage := List (String × String)

def getItem (k : String) (s : Storage) : Option String :=
  match s with
  | [] => none
  | (k2, v) :: rest => if k2 = k then some v else getItem k rest

def removeItem (k : String) (s : Storage) : Storage :=
  match s with
  | [] => []
  | (k2, v) :: rest =>
    if k2 = k then removeItem k rest else (k2, v) :: removeItem k rest

/-- `rizzmaster_chat_` followed by the character id (`useChat.ts`). -/
def chatStorageKey (id : String) : String := "rizzmaster_chat_" ++ id

/-- `rizzmaster_flags_` followed by the character id (`useGameState.ts`). -/
def flagsStorageKey (id : String) : String := "rizzmaster_flags_" ++ id

/-- The state the reset operations act on: the in-memory history and game
state together with the persistent store. -/
structure AppState where
  messages : List Message
  flagStats : FlagStats
  gameStatus : GameStatus
  storage : Storage
deriving DecidableEq, Repr

/-- Embedding of `resetChat` (`useChat.ts` lines 170-177): clear the
in-memory history and delete the chat record. -/
def resetChat (id : String) (st : AppState) : AppState :=
  { st with messages := [],
            storage := removeItem (chatStorageKey id) st.storage }

/-- Embedding of `resetGameState` (`useGameState.ts` lines 80-88): clear
the tally and status and delete the flags record. -/
def resetGameState (id : String) (st : AppState) : AppState :=
  { st with flagStats := ⟨0, 0, false⟩, gameStatus := none,
            storage := removeItem (flagsStorageKey id) st.storage }

/-- Embedding of `resetGame` (`ChatScreen.tsx` lines 79-82):
`await resetChat(); await resetGameState();` in sequence. -/
def resetGame (id : String) (st : AppState) : AppState :=
  resetGameState id (resetChat id st)

/-- The states observable across `resetGame`: the initial state, the state
after the first awaited sub-operation (`resetChat`) resolves — at which
point a render can occur — and the final state. -/
def resetGameTrace (id : String) (st : AppState) : List AppState :=
  [st, resetChat id st, resetGameState id (resetChat id st)]

theorem getItem_removeItem_self (k : String) (s : Storage) :
    getItem k (removeItem k s) = none := by
  induction s with
  | nil => rfl
  | cons kv rest ih =>
    obtain ⟨k3, v⟩ := kv
    by_cases h3 : k3 = k
    · simp [removeItem, h3, ih]
    · simp [removeItem, getItem, h3, ih]

theorem getItem_removeItem_of_ne (k k2 : String) (s : Storage) (h : k ≠ k2) :
    getItem k2 (removeItem k s) = getItem k2 s := by
  induction s with
  | nil => rfl
  | cons kv rest ih =>
    obtain ⟨k3, v⟩ := kv
    by_cases h3 : k3 = k
    · have hne : ¬k3 = k2 := by rw [h3]; exact h
      simp [removeItem, getItem, h3, hne, h, ih]
    · by_cases h2 : k3 = k2
      · simp [removeItem, getItem, h3, h2, Ne.symm h, ih]
      · simp [removeItem, getItem, h3, h2, ih]

/-- The chat and flags records of one character live under distinct keys. -/
theorem chatKey_ne_flagsKey (id : String) : chatStorageKey id ≠ flagsStorageKey id := by
  intro h
  have hlen := congrArg String.length h
  rw [chatStorageKey, flagsStorageKey, String.length_append, String.length_append] at hlen
  have h1 : ("rizzmaster_chat_" : String).length = 16 := by decide
  have h2 : ("rizzmaster_flags_" : String).length = 17 := by decide
  rw [h1, h2] at hlen
  omega

def st0 : AppState := ⟨[⟨Role.user, "salut"⟩], ⟨1, 1, false⟩, none, []⟩

/-- Counterexample to claim C7 as stated: `resetGame` passes through the
state left by its first awaited sub-operation, and in that intermediate
state the history is already cleared while the tally is still the stale
pre-reset one — a read there observes exactly the mixed state the claim
rules out. -/
theorem c7_counterexample :
    resetGameTrace "a" st0 = [st0, resetChat "a" st0, resetGame "a" st0] ∧
    (resetChat "a" st0).messages = [] ∧
    (resetChat "a" st0).flagStats ≠ ⟨0, 0, false⟩ := by
  decide

/-- Claim C7 as amended: `resetGame` clears the history, the tally and the
status and removes both persisted records, and is exposed to the UI as one
callback; but it is implemented as two sequentially awaited sub-operations
(`resetChat`, then `resetGameState`), so between them the cleared history
coexists with the stale tally and an intermediate read can observe that
mixed state. -/
theorem c7_resetGame_clears (id : String) (st : AppState) :
    (resetGame id st).messages = [] ∧
    (resetGame id st).flagStats = ⟨0, 0, false⟩ ∧
    (resetGame id st).gameStatus = none ∧
    getItem (chatStorageKey id) (resetGame id st).storage = none ∧
    getItem (flagsStorageKey id) (resetGame id st).storage = none ∧
    (resetChat id st).messages = [] ∧
    (resetChat id st).flagStats = st.flagStats ∧
    resetGame id st = resetGameState id (resetChat id st) := by
  refine ⟨rfl, rfl, rfl, ?_, ?_, rfl, rfl, rfl⟩
  · show getItem (chatStorageKey id)
      (removeItem (flagsStorageKey id) (removeItem (chatStorageKey id) st.storage)) = none
    rw [getItem_removeItem_of_ne _ _ _ (Ne.symm (chatKey_ne_flagsKey id))]
    exact getItem_removeItem_self _ _
  · exact getItem_removeItem_self _ _

/-- Claim C10: `resetChat` leaves the tally, the status and the persisted
flags record unchanged, and touches no storage key other than the chat key
of its character; `resetGameState` likewise leaves the history and the
persisted chat record unchanged and touches only the flags key; the two
keys are distinct, and composing both yields the fully cleared game. -/
theorem c10_reset_frame (id : String) (st : AppState) :
    (resetChat id st).flagStats = st.flagStats ∧
    (resetChat id st).gameStatus = st.gameStatus ∧
    getItem (flagsStorageKey id) (resetChat id st).storage =
      getItem (flagsStorageKey id) st.storage ∧
    (resetGameState id st).messages = st.messages ∧
    getItem (chatStorageKey id) (resetGameState id st).storage =
      getItem (chatStorageKey id) st.storage ∧
    chatStorageKey id ≠ flagsStorageKey id ∧
    (resetGame id st).messages = [] ∧
    (resetGame id st).flagStats = ⟨0, 0, false⟩ ∧
    (resetGame id st).gameStatus = none ∧
    (∀ k, k ≠ chatStorageKey id →
      getItem k (resetChat id st).storage = getItem k st.storage) ∧
    (∀ k, k ≠ flagsStorageKey id →
      getItem k (resetGameState id st).storage = getItem k st.storage) := by
  refine ⟨rfl, rfl, ?_, rfl, ?_, chatKey_ne_flagsKey id, rfl, rfl, rfl, ?_, ?_⟩
  · exact getItem_removeItem_of_ne _ _ _ (chatKey_ne_flagsKey id)
  · exact getItem_removeItem_of_ne _ _ _ (Ne.symm (chatKey_ne_flagsKey id))
  · intro k hk
    exact getItem_removeItem_of_ne _ _ _ (Ne.symm hk)
  · intro k hk
    exact getItem_removeItem_of_ne _ _ _ (Ne.symm hk)

/-- Witness for C10 at a concrete character id and state. -/
theorem c10_reset_frame_witness :
    getItem (flagsStorageKey "a") (resetChat "a" st0).storage =
      getItem (flagsStorageKey "a") st0.storage ∧
    getItem (chatStorageKey "a") (resetGameState "a" st0).storage =
      getItem (chatStorageKey "a") st0.storage :=
  ⟨(c10_reset_frame "a" st0).2.2.2.2.2.2.2.2.2.1 (flagsStorageKey "a") (by decide),
   (c10_reset_frame "a" st0).2.2.2.2.2.2.2.2.2.2 (chatStorageKey "a") (by decide)⟩

end RizzMaster
